import Mathlib

/-!
Shallow embedding of `src/lib/whatsappService.ts` from the
whatsapp-automation-tool repository, together with proofs about the
claims of its specification.

Conventions of the embedding:
* JavaScript objects become structures; optional fields become `Option`.
* `process.env` values are `Option String` (a variable may be unset);
  JavaScript truthiness of a string (`!s`) treats the empty string as
  falsy, which `envValueMissing` reproduces.
* Network and transport effects (the `fetch` call, the whatsapp-web.js
  client calls, timers) are abstracted as environment records holding
  the outcome each effect would produce; thrown JavaScript exceptions
  become `Except.error` carrying the error message.
* Loops whose index arithmetic can diverge in JavaScript are embedded
  with an explicit fuel parameter (`chunksLoop`) so that divergence is
  expressible as `none` for every fuel.
-/

/-- `Contact` interface (source lines 6-11). -/
structure Contact where
  id : String
  phone : String
  name : Option String
  customMessage : Option String
deriving DecidableEq, Repr

/-- `MessageResult` interface (source lines 13-17). -/
structure MessageResult where
  success : Bool
  error : Option String
  messageId : Option String
deriving DecidableEq, Repr

/-- A `MessageResult` spread together with `contactId`, as pushed onto the
`results` array by `sendMessagesBatch` (source lines 384-387 and 410-414). -/
structure BatchEntry where
  success : Bool
  error : Option String
  messageId : Option String
  contactId : String
deriving DecidableEq, Repr

/-- The summary object returned by `sendMessagesBatch` (source lines 433-437). -/
structure BatchSummary where
  total : Nat
  successful : Nat
  failed : Nat
deriving DecidableEq, Repr

/-- The full return value of `sendMessagesBatch` (source line 353). -/
structure BatchOutput where
  results : List BatchEntry
  summary : BatchSummary
deriving DecidableEq, Repr

/-- A small concrete contact list used to instantiate universally
quantified statements. -/
def sampleContacts : List Contact :=
  [{ id := "a", phone := "1", name := none, customMessage := none },
   { id := "b", phone := "2", name := none, customMessage := none },
   { id := "c", phone := "3", name := none, customMessage := none }]

/-- JavaScript truthiness test `!v` for a `string | undefined` environment
value: missing or empty counts as absent. -/
def envValueMissing : Option String → Bool
  | none => true
  | some s => s.isEmpty

/-- JavaScript `a || d` for an optional string `a` with default `d`:
`undefined`, `null` and the empty string all fall through to `d`. -/
def jsOrElse : Option String → String → String
  | none, d => d
  | some s, d => if s.isEmpty then d else s

/-- `formatPhoneNumber` (source lines 231-241): strip every non-digit
character; a ten-digit remainder gets a leading `1` country code. -/
def formatPhoneNumber (phone : String) : String :=
  let cleaned := String.mk (phone.toList.filter (fun c => c.isDigit))
  if cleaned.length = 10 then "1" ++ cleaned else cleaned

/-- Specification restatement of phone formatting, written from the spec's
words: strip all non-digit characters; if the remaining digit string has
exactly 10 digits, prepend the fixed default country code digit, yielding
an 11-digit string; otherwise pass the digit string through unchanged. -/
def formatPhoneNumberSpec (phone : String) : String :=
  let digits := phone.toList.filter (fun c => c.isDigit)
  if digits.length = 10 then String.mk ('1' :: digits) else String.mk digits

/-- Decides whether `pat` is a prefix of `l` (the test the global-regex
replacement performs at each scan position). -/
def startsWith : List Char → List Char → Bool
  | [], _ => true
  | _ :: _, [] => false
  | p :: ps, c :: cs => p == c && startsWith ps cs

/-- Specification restatement of replacement, written from the spec's
words: one left-to-right scan that, at each position, if the pattern
matches, emits the replacement text literally and skips the matched
characters, otherwise keeps the character. The fuel is the number of
characters still allowed to be consumed; the wrapper `replaceAll` supplies
the input length, which always suffices. -/
def replaceAllAux (pat rep : List Char) : Nat → List Char → List Char
  | 0, l => l
  | _ + 1, [] => []
  | fuel + 1, c :: rest =>
    if startsWith pat (c :: rest) then
      rep ++ replaceAllAux pat rep fuel (rest.drop (pat.length - 1))
    else
      c :: replaceAllAux pat rep fuel rest

/-- Specification restatement: replace every non-overlapping occurrence of
`pat` in `l` by the literal text `rep`, scanning left to right. This is the
spec's reading of personalization ("replace every literal occurrence of a
fixed placeholder token with the contact's display name"); the
code-faithful `jsReplaceAll` below additionally interprets JavaScript
replacement patterns in `rep`, and the two agree exactly when `rep`
contains no dollar character. -/
def replaceAll (pat rep l : List Char) : List Char :=
  replaceAllAux pat rep l.length l

/-- The apostrophe character (code 39), written via its code point. -/
def singleQuoteChar : Char := Char.ofNat 39

/-- The backquote character (code 96), written via its code point. -/
def backquoteChar : Char := Char.ofNat 96

/-- JavaScript's interpretation of a string replacement argument of
`String.prototype.replace`: `$$` inserts a dollar sign, `$&` inserts the
matched substring, a dollar followed by a backquote inserts the portion of
the original string before the match, and a dollar followed by an
apostrophe inserts the portion after the match. The pattern `/\[Name\]/g`
has no capture groups and no named groups, so every other dollar sequence
(including a trailing lone dollar) is kept literally. -/
def expandReplacement (matched before after : List Char) : List Char → List Char
  | [] => []
  | [c] => [c]
  | c :: c2 :: rest =>
    if c = '$' then
      if c2 = '$' then '$' :: expandReplacement matched before after rest
      else if c2 = '&' then matched ++ expandReplacement matched before after rest
      else if c2 = backquoteChar then before ++ expandReplacement matched before after rest
      else if c2 = singleQuoteChar then after ++ expandReplacement matched before after rest
      else c :: expandReplacement matched before after (c2 :: rest)
    else c :: expandReplacement matched before after (c2 :: rest)

/-- One left-to-right scan of JavaScript `l.replace(/pat/g, rep)` for a
literal pattern `pat` and a *string* replacement `rep`: at each match the
replacement is first expanded by `expandReplacement` against the matched
text and the original string's surrounding context (accumulated in `seen`,
stored reversed), then emitted. The fuel is the number of characters still
allowed to be consumed; the wrapper `jsReplaceAll` supplies the input
length, which always suffices. -/
def jsReplaceAllAux (pat rep : List Char) : Nat → List Char → List Char → List Char
  | 0, _, l => l
  | _ + 1, _, [] => []
  | fuel + 1, seen, c :: rest =>
    if startsWith pat (c :: rest) then
      expandReplacement pat seen.reverse (rest.drop (pat.length - 1)) rep ++
        jsReplaceAllAux pat rep fuel (pat.reverse ++ seen) (rest.drop (pat.length - 1))
    else
      c :: jsReplaceAllAux pat rep fuel (c :: seen) rest

/-- JavaScript `l.replace(/pat/g, rep)` for a literal pattern and a string
replacement, dollar patterns included. -/
def jsReplaceAll (pat rep l : List Char) : List Char :=
  jsReplaceAllAux pat rep l.length [] l

/-- The literal personalization placeholder `[Name]` matched by the regex
`/\[Name\]/g` (source lines 258 and 313). -/
def namePlaceholder : List Char := ['[', 'N', 'a', 'm', 'e', ']']

/-- `contact.name || 'there'` (source lines 258 and 313). -/
def resolveName (name : Option String) : String :=
  jsOrElse name "there"

/-- The personalization step shared by both backends (source lines 258 and
313): `message.replace(/\[Name\]/g, contact.name || 'there')`, with the
resolved name interpreted as a JavaScript replacement string — names
containing dollar patterns are expanded, not inserted literally. -/
def personalizedMessage (message : String) (name : Option String) : String :=
  String.mk (jsReplaceAll namePlaceholder (resolveName name).toList message.toList)

/-- Interleave a separator between parts (the character-list form of
`String.intercalate`), used to describe templates as placeholder-free
segments joined by the placeholder. -/
def joinWith (sep : List Char) : List (List Char) → List Char
  | [] => []
  | [p] => p
  | p :: q :: ps => p ++ (sep ++ joinWith sep (q :: ps))

/-- Outcome of the `fetch` to the Graph API (source lines 269-281), as seen
by the caller: either the fetch or the `response.json()` parse threw, or a
response arrived with its `ok` flag, its `error.message` field (if any) and
its `messages[0].id` field (if any). The oracle receives the `to` field and
the message body of the posted payload. -/
inductive FetchOutcome where
  | netError (msg : String)
  | reply (ok : Bool) (errorMessage : Option String) (firstMessageId : Option String)
deriving DecidableEq, Repr

/-- Environment of `sendMessageUsingBusinessAPI`: the two configuration
secrets read from `process.env` (source lines 250-251) and the behaviour of
the network for this call. -/
structure BusinessEnv where
  accessToken : Option String
  phoneNumberId : Option String
  fetchOutcome : String → String → FetchOutcome

/-- The try-block body of `sendMessageUsingBusinessAPI` (source lines
249-290). The first component is the computation up to the uniform result:
`Except.error` marks a thrown exception (to be converted by the catch
clause); the second component records whether the HTTP POST was issued. -/
def businessAPIBody (env : BusinessEnv) (contact : Contact) (message : String) :
    Except String MessageResult × Bool :=
  if envValueMissing env.accessToken || envValueMissing env.phoneNumberId then
    (.error "WhatsApp Business API credentials not configured", false)
  else
    let toField := formatPhoneNumber contact.phone
    let body := personalizedMessage message contact.name
    match env.fetchOutcome toField body with
    | .netError msg => (.error msg, true)
    | .reply ok errorMessage firstMessageId =>
      if ok then
        (.ok { success := true, error := none, messageId := firstMessageId }, true)
      else
        (.error (jsOrElse errorMessage "Failed to send message"), true)

/-- `sendMessageUsingBusinessAPI` (source lines 244-298): the body wrapped
in the catch clause that turns any thrown error into a failure result. The
second component again records whether the HTTP POST was issued. -/
def sendMessageUsingBusinessAPI (env : BusinessEnv) (contact : Contact)
    (message : String) : MessageResult × Bool :=
  match businessAPIBody env contact message with
  | (.ok r, fetched) => (r, fetched)
  | (.error e, fetched) => ({ success := false, error := some e, messageId := none }, fetched)

/-- Environment of `sendMessageUsingWebAutomation`: the connection state it
consults and the behaviour of the whatsapp-web.js calls. `chatFound` is the
outcome of `getChatById(chatId).catch(() => null)` (which never throws);
`chatSend` and `clientSend` are the two text-send calls, and `attachSend`
covers `MessageMedia.fromFilePath` plus the media send for one attachment
name. `now` is `Date.now()`. -/
structure AutomationEnv where
  clientPresent : Bool
  isReady : Bool
  chatFound : String → Bool
  chatSend : String → Except String Unit
  clientSend : String → String → Except String Unit
  attachSend : String → Except String Unit
  now : Nat

/-- The attachment loop of the automation backend (source lines 326-331):
each attachment is loaded and sent in order; the first thrown error aborts
the loop. -/
def sendAttachmentsLoop (env : AutomationEnv) : List String → Except String Unit
  | [] => .ok ()
  | att :: rest =>
    match env.attachSend att with
    | .error e => .error e
    | .ok _ => sendAttachmentsLoop env rest

/-- The text-send step of the automation backend (source lines 316-323):
when `getChatById` resolved a chat, send through it, otherwise send
directly to the channel identifier (which creates the conversation). -/
def textSendOutcome (env : AutomationEnv) (chatId body : String) : Except String Unit :=
  if env.chatFound chatId then env.chatSend body else env.clientSend chatId body

/-- The try-block body of `sendMessageUsingWebAutomation` (source lines
306-336): `Except.error` marks a thrown exception, including the not-ready
guard of source lines 307-309. -/
def webAutomationBody (env : AutomationEnv) (contact : Contact) (message : String)
    (attachments : List String) : Except String MessageResult :=
  if !(env.clientPresent && env.isReady) then
    .error "WhatsApp Web client not ready. Please initialize first."
  else
    match textSendOutcome env (formatPhoneNumber contact.phone ++ "@c.us")
        (personalizedMessage message contact.name) with
    | .error e => .error e
    | .ok _ =>
      match sendAttachmentsLoop env attachments with
      | .error e => .error e
      | .ok _ =>
        .ok { success := true, error := none,
              messageId := some ("web_" ++ toString env.now) }

/-- `sendMessageUsingWebAutomation` (source lines 301-344): the body wrapped
in the catch clause that turns any thrown error into a failure result. -/
def sendMessageUsingWebAutomation (env : AutomationEnv) (contact : Contact)
    (message : String) (attachments : List String) : MessageResult :=
  match webAutomationBody env contact message attachments with
  | .ok r => r
  | .error e => { success := false, error := some e, messageId := none }

/-- `sendMessage` (source lines 442-454): backend selection by the
`USE_WHATSAPP_BUSINESS_API` flag. -/
def sendMessage (useBusinessAPI : Bool) (envB : BusinessEnv) (envA : AutomationEnv)
    (contact : Contact) (message : String) (attachments : List String) : MessageResult :=
  if useBusinessAPI then
    (sendMessageUsingBusinessAPI envB contact message).1
  else
    sendMessageUsingWebAutomation envA contact message attachments

/-- What one `await sendMessage(contact, message)` call inside the retry
loop of `sendMessagesBatch` does (source line 383): it either returns a
`MessageResult` or throws. The dispatcher is parametrised by an oracle
giving the outcome of the attempt numbered `n` (starting at 1) for a given
contact and message. -/
inductive SendAttempt where
  | result (r : MessageResult)
  | thrown (msg : String)

/-- The per-contact retry loop of `sendMessagesBatch` (source lines
370-406), `while (attempts < maxRetries && !success)`. `remaining` is
`maxRetries - attempts` and `attempts` the number of attempts already made;
the components of the value are the entries pushed onto `results`, the
final `success` flag and the final `lastError`. A returned result is pushed
onto `results` whether it succeeded or not (source line 384); a thrown
error only updates `lastError` (source lines 396-399). -/
def attemptLoop (send : Nat → SendAttempt) (cid : String) :
    Nat → Nat → String → List BatchEntry × Bool × String
  | 0, _, lastError => ([], false, lastError)
  | remaining + 1, attempts, lastError =>
    match send (attempts + 1) with
    | .result r =>
      let entry : BatchEntry :=
        { success := r.success, error := r.error, messageId := r.messageId, contactId := cid }
      if r.success then
        ([entry], true, lastError)
      else
        let next := attemptLoop send cid remaining (attempts + 1) (jsOrElse r.error "Unknown error")
        (entry :: next.1, next.2.1, next.2.2)
    | .thrown e =>
      attemptLoop send cid remaining (attempts + 1) e

/-- Processing of one contact by `sendMessagesBatch` (source lines 368-416):
run the retry loop starting from `attempts = 0` and `lastError = ''`; if no
attempt succeeded, push one more synthesized failure entry carrying the
last observed error (source lines 409-415). -/
def processContact (orc : Contact → String → Nat → SendAttempt) (message : String)
    (maxRetries : Nat) (c : Contact) : List BatchEntry :=
  let r := attemptLoop (orc c message) c.id maxRetries 0 ""
  if r.2.1 then r.1 else r.1 ++ [{ success := false, error := some r.2.2,
                                   messageId := none, contactId := c.id }]

/-- Fuel-indexed form of the batch-splitting loop of `sendMessagesBatch`
(source lines 358-360) for a positive batch size: take the next `batchSize`
elements, recurse on the rest. The wrapper `chunksList` supplies the input
length as fuel, which always suffices. -/
def chunksListAux {α : Type} (batchSize : Nat) : Nat → List α → List (List α)
  | 0, _ => []
  | _ + 1, [] => []
  | fuel + 1, c :: rest =>
    (c :: rest.take (batchSize - 1)) :: chunksListAux batchSize fuel (rest.drop (batchSize - 1))

/-- Contiguous batches of at most `batchSize` elements, preserving order —
the value the splitting loop of `sendMessagesBatch` computes when
`batchSize ≥ 1` (see `c10_batch_partition_termination` for the connection
to the literal index loop, including its divergence for `batchSize ≤ 0`). -/
def chunksList {α : Type} (batchSize : Nat) (l : List α) : List (List α) :=
  chunksListAux batchSize l.length l

/-- `sendMessagesBatch` (source lines 347-439): split the contacts into
batches, run the retry loop for every contact of every batch in order,
collect every pushed entry, and derive the summary by counting the
success-flagged and failure-flagged entries of the collected list, with
`total` taken from the input list (source lines 426-438). The inter-message
and inter-batch delays only affect timing and are not modelled. -/
def sendMessagesBatch (contacts : List Contact) (message : String)
    (batchSize : Nat) (maxRetries : Nat)
    (orc : Contact → String → Nat → SendAttempt) : BatchOutput :=
  let batches := chunksList batchSize contacts
  let results :=
    (batches.map (fun batch => (batch.map (processContact orc message maxRetries)).flatten)).flatten
  let successful := results.countP (fun r => r.success)
  let failed := results.countP (fun r => !r.success)
  { results := results,
    summary := { total := contacts.length, successful := successful, failed := failed } }

/-- JavaScript `Array.prototype.slice` index resolution for a list of
length `n`: negative indexes count from the end and clamp at 0, others
clamp at `n`. -/
def jsSliceIndex (n : Nat) (i : Int) : Nat :=
  if i < 0 then ((n : Int) + i).toNat else min i.toNat n

/-- JavaScript `l.slice(s, e)`: the elements from resolved index `s`
(inclusive) to resolved index `e` (exclusive). -/
def jsSlice {α : Type} (l : List α) (s e : Int) : List α :=
  (l.take (jsSliceIndex l.length e)).drop (jsSliceIndex l.length s)

/-- The literal batch-splitting loop of `sendMessagesBatch` (source lines
358-360): `for (let i = 0; i < contacts.length; i += batchSize)
batches.push(contacts.slice(i, i + batchSize))`, with an explicit fuel
bound on the number of iterations. `none` means the loop ran out of fuel —
if no fuel suffices, the JavaScript loop never terminates. -/
def chunksLoop {α : Type} (batchSize : Int) (l : List α) : Nat → Int → Option (List (List α))
  | 0, _ => none
  | fuel + 1, i =>
    if i < (l.length : Int) then
      match chunksLoop batchSize l fuel (i + batchSize) with
      | none => none
      | some rest => some (jsSlice l i (i + batchSize) :: rest)
    else
      some []

/-- `WhatsAppClientState` (source lines 19-26). The session handle is
reduced to its presence (`client`); `currentQR` and `lastError` keep their
nullable string payloads. -/
structure ConnState where
  client : Bool
  isReady : Bool
  isConnecting : Bool
  currentQR : Option String
  lastError : Option String
  connectionAttempts : Nat
deriving DecidableEq, Repr

/-- The initial `clientState` value (source lines 29-36). -/
def clientState : ConnState :=
  { client := false, isReady := false, isConnecting := false,
    currentQR := none, lastError := none, connectionAttempts := 0 }

/-- `MAX_CONNECTION_ATTEMPTS` (source line 39). -/
def MAX_CONNECTION_ATTEMPTS : Nat := 3

/-- Outcome of `await clientState.client.initialize()` (source line 206):
the session open either resolves or throws with a message. -/
inductive InitOutcome where
  | resolved
  | threw (msg : String)
deriving DecidableEq, Repr

/-- How a call of `initializeWhatsAppWebClient` ends at its own boundary:
it either returns normally or throws an error with the given message. -/
inductive InitCallResult where
  | ok
  | threw (msg : String)
deriving DecidableEq, Repr

/-- `initializeWhatsAppWebClient` (source lines 70-228) as a state
transformer. The three early guards (already connecting, already ready,
attempt ceiling) leave the state untouched; otherwise the connecting flag
is raised, the attempt counter incremented, error and credential cleared
(lines 88-91), any existing session torn down best-effort (lines 95-103),
a fresh session handle installed (line 110), and the session open awaited:
on resolution the call returns with the connecting flag still raised (the
`ready` event clears it later); on a throw the catch clause records the
error, clears the flags, drops the handle and rethrows (lines 211-227). -/
def initializeWhatsAppWebClient (st : ConnState) (o : InitOutcome) :
    ConnState × InitCallResult :=
  if st.isConnecting then (st, .ok)
  else if st.client && st.isReady then (st, .ok)
  else if MAX_CONNECTION_ATTEMPTS ≤ st.connectionAttempts then
    (st, .threw "Maximum connection attempts (3) exceeded. Please try again later.")
  else
    let st1 : ConnState :=
      { st with isConnecting := true,
                connectionAttempts := st.connectionAttempts + 1,
                lastError := none, currentQR := none }
    let st2 : ConnState :=
      if st1.client then { st1 with client := false, isReady := false } else st1
    let st3 : ConnState := { st2 with client := true }
    match o with
    | .resolved => (st3, .ok)
    | .threw msg =>
      ({ st3 with lastError := some msg, isConnecting := false,
                  isReady := false, client := false },
       .threw msg)

/-- The `qr` event handler (source lines 135-144). -/
def onQR (st : ConnState) (qr : String) : ConnState :=
  { st with currentQR := some qr }

/-- The `ready` event handler (source lines 146-153): mark ready, clear the
connecting flag and the credential, and reset the attempt counter. -/
def onReady (st : ConnState) : ConnState :=
  { st with isReady := true, isConnecting := false,
            currentQR := none, connectionAttempts := 0 }

/-- The `authenticated` event handler (source lines 155-157): logging only. -/
def onAuthenticated (st : ConnState) : ConnState := st

/-- The `auth_failure` event handler (source lines 159-169); the scheduled
session-storage cleanup touches the filesystem, not this state. -/
def onAuthFailure (st : ConnState) (msg : String) : ConnState :=
  { st with lastError := some ("Authentication failed: " ++ msg),
            isReady := false, isConnecting := false }

/-- The `disconnected` event handler (source lines 171-185); the scheduled
automatic reinitialization is a later `initializeWhatsAppWebClient` step. -/
def onDisconnected (st : ConnState) (reason : String) : ConnState :=
  { st with isReady := false, isConnecting := false, currentQR := none,
            lastError := some ("Disconnected: " ++ reason) }

/-- The startup-timeout guard (source lines 192-203): if still connecting
when the timer fires, record the timeout, clear the connecting flag and
drop the session handle; otherwise do nothing. -/
def onStartupTimeout (st : ConnState) : ConnState :=
  if st.isConnecting then
    { st with lastError := some "Connection timeout",
              isConnecting := false, client := false }
  else st

/-- `disconnectWhatsAppWeb` (source lines 474-488): when a session handle
is present, tear it down (best-effort — the teardown outcome `_td` has no
effect on the state) and reset every field to the initial snapshot; when
no handle is present, the whole body is skipped. -/
def disconnectWhatsAppWeb (st : ConnState) (_td : Except String Unit) : ConnState :=
  if st.client then
    { client := false, isReady := false, isConnecting := false,
      currentQR := none, lastError := none, connectionAttempts := 0 }
  else st

/-- `resetConnectionAttempts` (source lines 491-494). -/
def resetConnectionAttempts (st : ConnState) : ConnState :=
  { st with connectionAttempts := 0, lastError := none }

/-- One step of the connection manager: an operation called by a
collaborator, or a transport lifecycle event. The lifecycle events are
emitted by the session object, so they require a session handle to be
present; the startup-timeout timer lives outside the session and may fire
in any state. -/
inductive ConnStep : ConnState → ConnState → Prop where
  | initCall (st : ConnState) (o : InitOutcome) :
      ConnStep st (initializeWhatsAppWebClient st o).1
  | disconnectCall (st : ConnState) (td : Except String Unit) :
      ConnStep st (disconnectWhatsAppWeb st td)
  | resetCall (st : ConnState) : ConnStep st (resetConnectionAttempts st)
  | qrEvent (st : ConnState) (qr : String) (h : st.client = true) :
      ConnStep st (onQR st qr)
  | readyEvent (st : ConnState) (h : st.client = true) : ConnStep st (onReady st)
  | authenticatedEvent (st : ConnState) (h : st.client = true) :
      ConnStep st (onAuthenticated st)
  | authFailureEvent (st : ConnState) (msg : String) (h : st.client = true) :
      ConnStep st (onAuthFailure st msg)
  | disconnectedEvent (st : ConnState) (reason : String) (h : st.client = true) :
      ConnStep st (onDisconnected st reason)
  | startupTimeoutEvent (st : ConnState) : ConnStep st (onStartupTimeout st)

/-- The states the connection manager can reach from its initial value. -/
inductive ConnReachable : ConnState → Prop where
  | start : ConnReachable clientState
  | step (s s2 : ConnState) : ConnReachable s → ConnStep s s2 → ConnReachable s2

/-- The inductive invariant of the connection manager: the ready and
connecting flags are never both raised, and a ready manager always holds a
session handle. -/
def ConnInv (st : ConnState) : Prop :=
  (st.isReady = true → st.isConnecting = false) ∧
  (st.isReady = true → st.client = true)

theorem string_mk_length (l : List Char) : (String.mk l).length = l.length := rfl

theorem string_one_append (l : List Char) : "1" ++ String.mk l = String.mk ('1' :: l) := rfl

/-- Claim C6: for every input string, phone formatting strips all non-digit
characters; if the remaining digit string has exactly 10 digits, the result
is that string with the single default country code digit `1` prepended,
an 11-digit string; otherwise the result is the stripped digit string
unchanged. -/
theorem c6_phone_formatting (s : String) :
    formatPhoneNumber s = formatPhoneNumberSpec s ∧
    (formatPhoneNumber s).length =
      (if (s.toList.filter (fun c => c.isDigit)).length = 10 then 11
       else (s.toList.filter (fun c => c.isDigit)).length) := by
  have hd : s.toList = s.data := rfl
  simp only [formatPhoneNumber, formatPhoneNumberSpec, hd, string_mk_length, string_one_append]
  by_cases h : (List.filter (fun c => c.isDigit) s.data).length = 10 <;>
    simp [h, string_mk_length]

/-- Claim C4: with the API backend, an absent access token or phone-number
identifier yields the fixed credentials failure result and no HTTP POST is
attempted (the second component of the embedding records whether the
network call was issued). -/
theorem c4_missing_credentials (env : BusinessEnv) (contact : Contact)
    (message : String)
    (h : env.accessToken = none ∨ env.phoneNumberId = none) :
    sendMessageUsingBusinessAPI env contact message =
      ({ success := false,
         error := some "WhatsApp Business API credentials not configured",
         messageId := none }, false) := by
  have hmiss : (envValueMissing env.accessToken || envValueMissing env.phoneNumberId) = true := by
    rcases h with h | h <;> simp [h, envValueMissing]
  simp [sendMessageUsingBusinessAPI, businessAPIBody, hmiss]

theorem c4_missing_credentials_witness :
    sendMessageUsingBusinessAPI
      { accessToken := none, phoneNumberId := some "12345",
        fetchOutcome := fun _ _ => .reply true none none }
      { id := "c1", phone := "555-123-4567", name := none, customMessage := none }
      "Hi [Name]" =
      ({ success := false,
         error := some "WhatsApp Business API credentials not configured",
         messageId := none }, false) :=
  c4_missing_credentials
    { accessToken := none, phoneNumberId := some "12345",
      fetchOutcome := fun _ _ => .reply true none none }
    { id := "c1", phone := "555-123-4567", name := none, customMessage := none }
    "Hi [Name]" (Or.inl rfl)

/-- Claim C5: in any state with the attempt counter at or above
`MAX_CONNECTION_ATTEMPTS` that is neither connecting nor ready, an
`initializeWhatsAppWebClient` call throws the exhaustion error and leaves
the state untouched (no session is opened), so a repeated call fails the
same way; `resetConnectionAttempts` clears the counter, and the `ready`
event handler resets the counter to 0. -/
theorem c5_connection_exhausted (st st2 : ConnState) (o o2 : InitOutcome)
    (h1 : MAX_CONNECTION_ATTEMPTS ≤ st.connectionAttempts)
    (h2 : st.isConnecting = false) (h3 : st.isReady = false) :
    initializeWhatsAppWebClient st o =
      (st, .threw "Maximum connection attempts (3) exceeded. Please try again later.") ∧
    initializeWhatsAppWebClient (initializeWhatsAppWebClient st o).1 o2 =
      (st, .threw "Maximum connection attempts (3) exceeded. Please try again later.") ∧
    (resetConnectionAttempts st2).connectionAttempts = 0 ∧
    (onReady st2).connectionAttempts = 0 := by
  have hfirst : initializeWhatsAppWebClient st o =
      (st, .threw "Maximum connection attempts (3) exceeded. Please try again later.") := by
    simp [initializeWhatsAppWebClient, h1, h2, h3]
  refine ⟨hfirst, ?_, rfl, rfl⟩
  rw [hfirst]
  simp [initializeWhatsAppWebClient, h1, h2, h3]

theorem c5_connection_exhausted_witness :
    initializeWhatsAppWebClient
      { client := false, isReady := false, isConnecting := false,
        currentQR := none, lastError := none, connectionAttempts := 3 }
      .resolved =
      ({ client := false, isReady := false, isConnecting := false,
         currentQR := none, lastError := none, connectionAttempts := 3 },
       .threw "Maximum connection attempts (3) exceeded. Please try again later.") :=
  (c5_connection_exhausted
    { client := false, isReady := false, isConnecting := false,
      currentQR := none, lastError := none, connectionAttempts := 3 }
    clientState .resolved .resolved (by decide) rfl rfl).1

/-- Claim C8, counterexample: in the reachable state left behind by a
failed first initialization attempt (no session handle, a recorded error,
one used attempt), `disconnectWhatsAppWeb` does not reset the state to the
initial snapshot — the body is guarded by the presence of a session
handle, so the call is a no-op there. -/
theorem c8_disconnect_counterexample :
    disconnectWhatsAppWeb
      { client := false, isReady := false, isConnecting := false,
        currentQR := none, lastError := some "Connection timeout",
        connectionAttempts := 1 } (.ok ()) ≠ clientState := by
  decide

/-- Claim C8 as amended: `disconnectWhatsAppWeb` resets every state field
to the initial disconnected snapshot (session handle absent, ready false,
connecting false, credential null, last error null, attempt counter zero)
whenever a session handle is present — regardless of the teardown outcome,
which is never propagated — and leaves the state unchanged when no session
handle is present. -/
theorem c8_disconnect_amended (st : ConnState) (td : Except String Unit) :
    disconnectWhatsAppWeb st td = (if st.client then clientState else st) := by
  by_cases h : st.client <;> simp [disconnectWhatsAppWeb, clientState, h]

/-- Claim C1 fails on the code: for a single contact whose three send
attempts (the default `maxRetries`) each return a failure result, the
result list contains four entries whose `contactId` matches the contact —
the retry loop pushes every returned attempt result (source line 384) and
the exhausted-retries path then pushes one more synthesized failure
(source lines 409-415) — not exactly one. -/
theorem c1_results_not_one_per_contact :
    (List.filter (fun r => r.contactId == "c1")
      (sendMessagesBatch
        [{ id := "c1", phone := "555", name := none, customMessage := none }]
        "m" 50 3
        (fun _ _ _ => .result { success := false, error := some "boom", messageId := none })).results).length = 4 := by
  decide

/-- Claim C2 fails on the code: with one contact whose three send attempts
each return a failure result, the returned summary has `total = 1` but
`successful = 0` and `failed = 4` (the four entries of the inflated result
list), so `successful + failed ≠ total`. -/
theorem c2_summary_not_additive :
    BatchOutput.summary
      (sendMessagesBatch
        [{ id := "c1", phone := "555", name := none, customMessage := none }]
        "m" 50 3
        (fun _ _ _ => .result { success := false, error := some "boom", messageId := none })) =
      { total := 1, successful := 0, failed := 4 } := by
  decide

theorem businessAPIBody_ok (env : BusinessEnv) (contact : Contact) (message : String)
    (r : MessageResult) (f : Bool)
    (h : businessAPIBody env contact message = (.ok r, f)) :
    r.success = true := by
  by_cases hm : (envValueMissing env.accessToken || envValueMissing env.phoneNumberId) = true
  · simp [businessAPIBody, hm] at h
  · rcases hfo : env.fetchOutcome (formatPhoneNumber contact.phone)
        (personalizedMessage message contact.name) with msg | ⟨ok, em, mid⟩
    · simp [businessAPIBody, hm, hfo] at h
    · by_cases hok : ok = true
      · simp [businessAPIBody, hm, hfo, hok] at h
        exact h.1 ▸ rfl
      · simp [businessAPIBody, hm, hfo, hok] at h

theorem webAutomationBody_ok (env : AutomationEnv) (contact : Contact) (message : String)
    (attachments : List String) (r : MessageResult)
    (h : webAutomationBody env contact message attachments = .ok r) :
    r.success = true := by
  by_cases hg : (!(env.clientPresent && env.isReady)) = true
  · simp [webAutomationBody, hg] at h
  · rcases hts : textSendOutcome env (formatPhoneNumber contact.phone ++ "@c.us")
        (personalizedMessage message contact.name) with e | u
    · simp [webAutomationBody, hg, hts] at h
    · rcases hal : sendAttachmentsLoop env attachments with e2 | u2
      · simp [webAutomationBody, hg, hts, hal] at h
      · simp [webAutomationBody, hg, hts, hal] at h
        exact h ▸ rfl

/-- Claim C3: neither send operation raises past its own boundary. For the
API backend, the call either returns the successful result produced by its
try-block body, or — when the body throws, with message `e` — returns the
uniform failure result carrying `e`; the same holds for the automation
backend; and in particular a not-ready session on the automation path is
caught and converted to the fixed not-ready failure result. -/
theorem c3_send_never_raises (envB : BusinessEnv) (envA : AutomationEnv)
    (contact : Contact) (message : String) (attachments : List String) :
    ((∃ r, (businessAPIBody envB contact message).1 = .ok r ∧
           (sendMessageUsingBusinessAPI envB contact message).1 = r ∧ r.success = true) ∨
     (∃ e, (businessAPIBody envB contact message).1 = .error e ∧
           (sendMessageUsingBusinessAPI envB contact message).1 =
             { success := false, error := some e, messageId := none })) ∧
    ((∃ r, webAutomationBody envA contact message attachments = .ok r ∧
           sendMessageUsingWebAutomation envA contact message attachments = r ∧
           r.success = true) ∨
     (∃ e, webAutomationBody envA contact message attachments = .error e ∧
           sendMessageUsingWebAutomation envA contact message attachments =
             { success := false, error := some e, messageId := none })) ∧
    (envA.clientPresent = false ∨ envA.isReady = false →
      sendMessageUsingWebAutomation envA contact message attachments =
        { success := false,
          error := some "WhatsApp Web client not ready. Please initialize first.",
          messageId := none }) := by
  refine ⟨?_, ?_, ?_⟩
  · rcases hb : businessAPIBody envB contact message with ⟨r, f⟩
    cases r with
    | ok r =>
      exact Or.inl ⟨r, by simp [hb], by simp [sendMessageUsingBusinessAPI, hb],
        businessAPIBody_ok envB contact message r f hb⟩
    | error e =>
      exact Or.inr ⟨e, by simp [hb], by simp [sendMessageUsingBusinessAPI, hb]⟩
  · rcases hb : webAutomationBody envA contact message attachments with e | r
    · exact Or.inr ⟨e, rfl, by simp [sendMessageUsingWebAutomation, hb]⟩
    · exact Or.inl ⟨r, rfl, by simp [sendMessageUsingWebAutomation, hb],
        webAutomationBody_ok envA contact message attachments r hb⟩
  · intro h
    have hguard : (envA.clientPresent && envA.isReady) = false := by
      rcases h with h | h <;> simp [h]
    simp [sendMessageUsingWebAutomation, webAutomationBody, hguard]

theorem c3_send_never_raises_witness :
    sendMessageUsingWebAutomation
      { clientPresent := false, isReady := false, chatFound := fun _ => false,
        chatSend := fun _ => .ok (), clientSend := fun _ _ => .ok (),
        attachSend := fun _ => .ok (), now := 0 }
      { id := "c1", phone := "555", name := none, customMessage := none }
      "m" [] =
      { success := false,
        error := some "WhatsApp Web client not ready. Please initialize first.",
        messageId := none } :=
  (c3_send_never_raises
    { accessToken := none, phoneNumberId := none, fetchOutcome := fun _ _ => .reply true none none }
    { clientPresent := false, isReady := false, chatFound := fun _ => false,
      chatSend := fun _ => .ok (), clientSend := fun _ _ => .ok (),
      attachSend := fun _ => .ok (), now := 0 }
    { id := "c1", phone := "555", name := none, customMessage := none }
    "m" []).2.2 (Or.inl rfl)

theorem connInv_start : ConnInv clientState := by
  constructor <;> intro h <;> simp [clientState] at h

theorem connInv_step (s s2 : ConnState) (hinv : ConnInv s) (hs : ConnStep s s2) :
    ConnInv s2 := by
  obtain ⟨h1, h2⟩ := hinv
  cases hs with
  | initCall o =>
    obtain ⟨cl, rd, cn, qr, le, n⟩ := s
    cases cl <;> cases rd <;> cases cn <;> cases o <;>
      by_cases hn : MAX_CONNECTION_ATTEMPTS ≤ n <;>
      first
        | (simp only [initializeWhatsAppWebClient, if_pos hn]; simp_all [ConnInv]; done)
        | (simp only [initializeWhatsAppWebClient, if_neg hn]; simp_all [ConnInv])
  | disconnectCall td =>
    by_cases hc : s.client = true <;>
      simp_all [disconnectWhatsAppWeb, ConnInv, clientState]
  | resetCall =>
    simp_all [resetConnectionAttempts, ConnInv]
  | qrEvent qr h =>
    simp_all [onQR, ConnInv]
  | readyEvent h =>
    simp_all [onReady, ConnInv]
  | authenticatedEvent h =>
    simp_all [onAuthenticated, ConnInv]
  | authFailureEvent msg h =>
    simp_all [onAuthFailure, ConnInv]
  | disconnectedEvent reason h =>
    simp_all [onDisconnected, ConnInv]
  | startupTimeoutEvent =>
    by_cases hc : s.isConnecting = true <;>
      simp_all [onStartupTimeout, ConnInv]

theorem connInv_of_reachable (st : ConnState) (h : ConnReachable st) : ConnInv st := by
  induction h with
  | start => exact connInv_start
  | step s s2 _ hstep ih => exact connInv_step s s2 ih hstep

/-- Claim C9: in every state of the connection manager reachable from the
initial disconnected state through its operations and the transport
lifecycle events, the ready flag and the connecting flag are never both
raised. -/
theorem c9_ready_connecting_invariant (st : ConnState) (h : ConnReachable st) :
    ¬(st.isReady = true ∧ st.isConnecting = true) := by
  rintro ⟨hr, hc⟩
  exact absurd ((connInv_of_reachable st h).1 hr) (by simp [hc])

theorem c9_ready_connecting_invariant_witness :
    ¬(clientState.isReady = true ∧ clientState.isConnecting = true) :=
  c9_ready_connecting_invariant clientState ConnReachable.start

theorem replaceAllAux_congr (pat rep : List Char) :
    ∀ (f1 f2 : Nat) (l : List Char), l.length ≤ f1 → l.length ≤ f2 →
      replaceAllAux pat rep f1 l = replaceAllAux pat rep f2 l := by
  intro f1
  induction f1 with
  | zero =>
    intro f2 l h1 h2
    have hl : l = [] := List.eq_nil_of_length_eq_zero (Nat.le_zero.mp h1)
    subst hl
    cases f2 <;> rfl
  | succ g ih =>
    intro f2 l h1 h2
    cases l with
    | nil => cases f2 <;> rfl
    | cons c rest =>
      cases f2 with
      | zero => simp at h2
      | succ g2 =>
        simp only [replaceAllAux]
        by_cases hs : startsWith pat (c :: rest) = true
        · rw [if_pos hs, if_pos hs]
          have hd : (rest.drop (pat.length - 1)).length ≤ rest.length := by
            simp [List.length_drop]
          refine congrArg (rep ++ ·) (ih g2 (rest.drop (pat.length - 1)) ?_ ?_)
          · exact le_trans hd (by simpa using h1)
          · exact le_trans hd (by simpa using h2)
        · rw [if_neg hs, if_neg hs]
          refine congrArg (c :: ·) (ih g2 rest ?_ ?_)
          · simpa using h1
          · simpa using h2

theorem replaceAllAux_skip (rep : List Char) :
    ∀ (p rest : List Char) (f1 f2 : Nat), '[' ∉ p →
      (p ++ rest).length ≤ f1 → rest.length ≤ f2 →
      replaceAllAux namePlaceholder rep f1 (p ++ rest) =
        p ++ replaceAllAux namePlaceholder rep f2 rest := by
  intro p
  induction p with
  | nil =>
    intro rest f1 f2 _ h1 h2
    simpa using replaceAllAux_congr namePlaceholder rep f1 f2 rest (by simpa using h1) h2
  | cons c p ih =>
    intro rest f1 f2 hp h1 h2
    have hc : ('[' : Char) ≠ c := by
      intro h
      exact hp (h ▸ List.mem_cons_self c p)
    cases f1 with
    | zero => simp at h1
    | succ g =>
      have hbeq : (('[' : Char) == c) = false := by
        simpa using hc
      have hsw : startsWith namePlaceholder (c :: (p ++ rest)) = false := by
        simp [namePlaceholder, startsWith, hbeq]
      have hnotp : '[' ∉ p := fun h => hp (List.mem_cons_of_mem c h)
      rw [List.cons_append,
        show replaceAllAux namePlaceholder rep (g + 1) (c :: (p ++ rest)) =
          (if startsWith namePlaceholder (c :: (p ++ rest)) = true then
            rep ++ replaceAllAux namePlaceholder rep g
              ((p ++ rest).drop (namePlaceholder.length - 1))
          else c :: replaceAllAux namePlaceholder rep g (p ++ rest)) from rfl,
        hsw]
      simp only [Bool.false_eq_true, if_false]
      rw [ih rest g f2 hnotp (by simpa using h1) h2]
      exact (List.cons_append c p (replaceAllAux namePlaceholder rep f2 rest)).symm

theorem replaceAllAux_match (rep : List Char) (rest : List Char) (f1 f2 : Nat)
    (h1 : (namePlaceholder ++ rest).length ≤ f1) (h2 : rest.length ≤ f2) :
    replaceAllAux namePlaceholder rep f1 (namePlaceholder ++ rest) =
      rep ++ replaceAllAux namePlaceholder rep f2 rest := by
  cases f1 with
  | zero =>
    exfalso
    simp [namePlaceholder] at h1
  | succ g =>
    have hg : rest.length ≤ g := by
      simp [namePlaceholder] at h1
      omega
    have hsw : startsWith namePlaceholder (namePlaceholder ++ rest) = true := by
      simp [namePlaceholder, startsWith]
    rw [show namePlaceholder ++ rest =
        '[' :: ('N' :: 'a' :: 'm' :: 'e' :: ']' :: rest) from rfl,
      show replaceAllAux namePlaceholder rep (g + 1)
          ('[' :: ('N' :: 'a' :: 'm' :: 'e' :: ']' :: rest)) =
        (if startsWith namePlaceholder ('[' :: ('N' :: 'a' :: 'm' :: 'e' :: ']' :: rest)) = true then
          rep ++ replaceAllAux namePlaceholder rep g
            (('N' :: 'a' :: 'm' :: 'e' :: ']' :: rest).drop (namePlaceholder.length - 1))
        else '[' :: replaceAllAux namePlaceholder rep g
          ('N' :: 'a' :: 'm' :: 'e' :: ']' :: rest)) from rfl]
    rw [show startsWith namePlaceholder ('[' :: ('N' :: 'a' :: 'm' :: 'e' :: ']' :: rest)) =
        startsWith namePlaceholder (namePlaceholder ++ rest) from rfl, hsw]
    simp only [if_pos]
    rw [show (('N' :: 'a' :: 'm' :: 'e' :: ']' :: rest).drop (namePlaceholder.length - 1)) =
        rest from rfl]
    exact congrArg (rep ++ ·) (replaceAllAux_congr namePlaceholder rep g f2 rest hg h2)

theorem replaceAll_joinWith (rep : List Char) :
    ∀ (parts : List (List Char)), (∀ p ∈ parts, '[' ∉ p) →
      replaceAll namePlaceholder rep (joinWith namePlaceholder parts) = joinWith rep parts := by
  intro parts
  induction parts with
  | nil => intro _; simp [joinWith, replaceAll, replaceAllAux]
  | cons p ps ih =>
    intro h
    have hp : '[' ∉ p := h p (List.mem_cons_self p ps)
    cases ps with
    | nil =>
      show replaceAllAux namePlaceholder rep p.length p = p
      have hsk := replaceAllAux_skip rep p [] p.length 0 hp (by simp) (by simp)
      simpa [replaceAllAux] using hsk
    | cons q qs =>
      have hrest : (∀ r ∈ q :: qs, '[' ∉ r) := fun r hr => h r (List.mem_cons_of_mem p hr)
      show replaceAllAux namePlaceholder rep
          (p ++ (namePlaceholder ++ joinWith namePlaceholder (q :: qs))).length
          (p ++ (namePlaceholder ++ joinWith namePlaceholder (q :: qs))) =
        p ++ (rep ++ joinWith rep (q :: qs))
      rw [replaceAllAux_skip rep p (namePlaceholder ++ joinWith namePlaceholder (q :: qs))
        _ (namePlaceholder ++ joinWith namePlaceholder (q :: qs)).length hp (by simp) (by simp)]
      rw [replaceAllAux_match rep (joinWith namePlaceholder (q :: qs))
        _ (joinWith namePlaceholder (q :: qs)).length (by simp) (by simp)]
      rw [show replaceAllAux namePlaceholder rep (joinWith namePlaceholder (q :: qs)).length
            (joinWith namePlaceholder (q :: qs)) =
          replaceAll namePlaceholder rep (joinWith namePlaceholder (q :: qs)) from rfl]
      rw [ih hrest]

theorem expandReplacement_no_dollar_aux (matched before after : List Char) :
    ∀ (n : Nat) (rep : List Char), rep.length ≤ n → '$' ∉ rep →
      expandReplacement matched before after rep = rep := by
  intro n
  induction n with
  | zero =>
    intro rep h _
    have hl : rep = [] := List.eq_nil_of_length_eq_zero (Nat.le_zero.mp h)
    subst hl
    rfl
  | succ m ih =>
    intro rep h hd
    cases rep with
    | nil => rfl
    | cons c rest =>
      cases rest with
      | nil => rfl
      | cons c2 rest2 =>
        have hc : ¬(c = '$') := fun hcontra =>
          hd (hcontra ▸ List.mem_cons_self c (c2 :: rest2))
        have hd2 : '$' ∉ c2 :: rest2 := fun hmem => hd (List.mem_cons_of_mem c hmem)
        simp only [expandReplacement, if_neg hc]
        exact congrArg (c :: ·) (ih (c2 :: rest2) (by simpa using h) hd2)

theorem expandReplacement_no_dollar (matched before after rep : List Char)
    (h : '$' ∉ rep) :
    expandReplacement matched before after rep = rep :=
  expandReplacement_no_dollar_aux matched before after rep.length rep le_rfl h

theorem jsReplaceAllAux_eq_replaceAllAux (pat rep : List Char) (hrep : '$' ∉ rep) :
    ∀ (fuel : Nat) (seen l : List Char),
      jsReplaceAllAux pat rep fuel seen l = replaceAllAux pat rep fuel l := by
  intro fuel
  induction fuel with
  | zero => intro seen l; rfl
  | succ g ih =>
    intro seen l
    cases l with
    | nil => rfl
    | cons c rest =>
      simp only [jsReplaceAllAux, replaceAllAux]
      by_cases hs : startsWith pat (c :: rest) = true
      · rw [if_pos hs, if_pos hs,
          expandReplacement_no_dollar pat seen.reverse (rest.drop (pat.length - 1)) rep hrep,
          ih (pat.reverse ++ seen) (rest.drop (pat.length - 1))]
      · rw [if_neg hs, if_neg hs, ih (c :: seen) rest]

/-- Claim C7, counterexample: for the template `Hi [Name]!` and a contact
whose display name is the two-character string `$&`, the program does not
replace the placeholder occurrence with the display name — JavaScript
interprets `$&` in the replacement string as the matched substring, so the
output is `Hi [Name]!` again, not the literal insertion `Hi $&!` the claim
requires. -/
theorem c7_personalization_counterexample :
    personalizedMessage "Hi [Name]!" (some "$&") = "Hi [Name]!" ∧
    personalizedMessage "Hi [Name]!" (some "$&") ≠ "Hi $&!" := by
  constructor <;> decide

/-- Claim C7 as amended: personalization replaces every literal occurrence
of the placeholder `[Name]` with the contact's display name (fallback
`there` when no name is present) provided the resolved name contains no
dollar character — a name containing JavaScript replacement patterns is
expanded against the match instead of inserted literally. Under that
proviso the program's replacement agrees, for every template, with the
spec-worded literal replacement `replaceAll`; and for any template made of
placeholder-free segments joined by the placeholder, the result is the
same segments joined by the resolved name. -/
theorem c7_personalization_amended (template : String) (name : Option String)
    (parts : List (List Char))
    (hname : '$' ∉ (resolveName name).toList)
    (hparts : ∀ p ∈ parts, '[' ∉ p) :
    personalizedMessage template name =
      String.mk (replaceAll namePlaceholder (resolveName name).toList template.toList) ∧
    personalizedMessage (String.mk (joinWith namePlaceholder parts)) name =
      String.mk (joinWith (resolveName name).toList parts) := by
  have hgen : ∀ (t : List Char),
      jsReplaceAll namePlaceholder (resolveName name).toList t =
        replaceAll namePlaceholder (resolveName name).toList t := fun t =>
    jsReplaceAllAux_eq_replaceAllAux namePlaceholder (resolveName name).toList hname
      t.length [] t
  constructor
  · exact congrArg String.mk (hgen template.toList)
  · calc personalizedMessage (String.mk (joinWith namePlaceholder parts)) name
        = String.mk (replaceAll namePlaceholder (resolveName name).toList
            (joinWith namePlaceholder parts)) :=
          congrArg String.mk (hgen (joinWith namePlaceholder parts))
      _ = String.mk (joinWith (resolveName name).toList parts) :=
          congrArg String.mk (replaceAll_joinWith (resolveName name).toList parts hparts)

theorem chunksListAux_congr {α : Type} (bs : Nat) :
    ∀ (f1 f2 : Nat) (l : List α), l.length ≤ f1 → l.length ≤ f2 →
      chunksListAux bs f1 l = chunksListAux bs f2 l := by
  intro f1
  induction f1 with
  | zero =>
    intro f2 l h1 _
    have hl : l = [] := List.eq_nil_of_length_eq_zero (Nat.le_zero.mp h1)
    subst hl
    cases f2 <;> rfl
  | succ g ih =>
    intro f2 l h1 h2
    cases l with
    | nil => cases f2 <;> rfl
    | cons c rest =>
      cases f2 with
      | zero => simp at h2
      | succ g2 =>
        simp only [chunksListAux]
        simp only [List.length_cons] at h1 h2
        refine congrArg _ (ih g2 (rest.drop (bs - 1)) ?_ ?_)
        · simp only [List.length_drop]; omega
        · simp only [List.length_drop]; omega

theorem chunksListAux_flatten {α : Type} (bs : Nat) :
    ∀ (f : Nat) (l : List α), l.length ≤ f → (chunksListAux bs f l).flatten = l := by
  intro f
  induction f with
  | zero =>
    intro l h
    have hl : l = [] := List.eq_nil_of_length_eq_zero (Nat.le_zero.mp h)
    subst hl
    rfl
  | succ g ih =>
    intro l h
    cases l with
    | nil => rfl
    | cons c rest =>
      simp only [chunksListAux, List.flatten_cons]
      simp only [List.length_cons] at h
      rw [ih (rest.drop (bs - 1)) (by simp only [List.length_drop]; omega)]
      simp [List.take_append_drop]

theorem chunksListAux_length_le {α : Type} (bs : Nat) (hbs : 1 ≤ bs) :
    ∀ (f : Nat) (l : List α), l.length ≤ f →
      ∀ ch ∈ chunksListAux bs f l, ch.length ≤ bs := by
  intro f
  induction f with
  | zero =>
    intro l h ch hch
    have hl : l = [] := List.eq_nil_of_length_eq_zero (Nat.le_zero.mp h)
    subst hl
    simp [chunksListAux] at hch
  | succ g ih =>
    intro l h ch hch
    cases l with
    | nil => simp [chunksListAux] at hch
    | cons c rest =>
      simp only [chunksListAux, List.mem_cons] at hch
      rcases hch with rfl | hch
      · simp only [List.length_cons]
        have h2 : (rest.take (bs - 1)).length ≤ bs - 1 := by
          rw [List.length_take]
          omega
        omega
      · refine ih (rest.drop (bs - 1)) ?_ ch hch
        simp only [List.length_cons] at h
        simp only [List.length_drop]
        omega

theorem chunksList_cons_of {α : Type} (bs : Nat) (hbs : 1 ≤ bs) (m : List α)
    (hm : m ≠ []) :
    chunksList bs m = m.take bs :: chunksList bs (m.drop bs) := by
  cases m with
  | nil => exact absurd rfl hm
  | cons c rest =>
    obtain ⟨k, rfl⟩ : ∃ k, bs = k + 1 := ⟨bs - 1, by omega⟩
    show chunksListAux (k + 1) (rest.length + 1) (c :: rest) = _
    simp only [chunksListAux]
    have h1 : (c :: rest).take (k + 1) = c :: rest.take k := rfl
    have h2 : (c :: rest).drop (k + 1) = rest.drop k := rfl
    rw [h1, h2]
    have h3 : k + 1 - 1 = k := by omega
    rw [h3]
    exact congrArg _ (chunksListAux_congr (k + 1) rest.length (rest.drop k).length
      (rest.drop k) (by simp [List.length_drop]) le_rfl)

theorem jsSlice_nonneg {α : Type} (l : List α) (j b : Nat) (hj : j ≤ l.length) :
    jsSlice l (j : Int) ((j : Int) + (b : Int)) = (l.drop j).take b := by
  have hJ : jsSliceIndex l.length (j : Int) = j := by
    simp only [jsSliceIndex]
    rw [if_neg (by omega)]
    omega
  have hE : jsSliceIndex l.length ((j : Int) + (b : Int)) = min (j + b) l.length := by
    simp only [jsSliceIndex]
    rw [if_neg (by omega)]
    omega
  simp only [jsSlice, hJ, hE]
  rw [List.drop_take]
  rw [List.take_eq_take]
  simp only [List.length_drop]
  omega

theorem chunksLoop_eq_chunksList {α : Type} (bs : Int) (hbs : 1 ≤ bs) (l : List α) :
    ∀ (fuel : Nat) (j : Nat), l.length - j < fuel →
      chunksLoop bs l fuel (j : Int) = some (chunksList bs.toNat (l.drop j)) := by
  intro fuel
  induction fuel with
  | zero => intro j h; omega
  | succ g ih =>
    intro j h
    by_cases hj : j < l.length
    · have hcast : ((j : Int) < (l.length : Int)) := by exact_mod_cast hj
      have hstep : (j : Int) + bs = ((j + bs.toNat : Nat) : Int) := by omega
      have hrec := ih (j + bs.toNat) (by omega)
      have hslice2 : jsSlice l (j : Int) ((j + bs.toNat : Nat) : Int) =
          (l.drop j).take bs.toNat := by
        rw [show ((j + bs.toNat : Nat) : Int) = (j : Int) + (bs.toNat : Int) by omega]
        exact jsSlice_nonneg l j bs.toNat (by omega)
      have hne : l.drop j ≠ [] := by
        intro hcontra
        rw [List.drop_eq_nil_iff] at hcontra
        omega
      simp only [chunksLoop, if_pos hcast, hstep, hrec, hslice2]
      rw [chunksList_cons_of bs.toNat (by omega) (l.drop j) hne]
      rw [List.drop_drop]
    · have hcast : ¬((j : Int) < (l.length : Int)) := by
        simp only [Int.ofNat_lt]
        omega
      simp only [chunksLoop, if_neg hcast]
      rw [List.drop_eq_nil_of_le (by omega)]
      rfl

theorem chunksLoop_diverges {α : Type} (bs : Int) (hbs : bs ≤ 0) (l : List α)
    (hl : l ≠ []) :
    ∀ (fuel : Nat) (i : Int), i ≤ 0 → chunksLoop bs l fuel i = none := by
  intro fuel
  induction fuel with
  | zero => intro i _; rfl
  | succ g ih =>
    intro i hi
    have hlen : 0 < l.length := List.length_pos.mpr hl
    have hcond : i < (l.length : Int) := by
      have : (0 : Int) < (l.length : Int) := by exact_mod_cast hlen
      omega
    simp only [chunksLoop, if_pos hcond, ih (i + bs) (by omega)]

/-- Claim C10: the batch-splitting loop of `sendMessagesBatch` terminates
for every contact list when the batch size is at least 1, producing the
contiguous in-order partition into batches of at most `batchSize` contacts
(the `chunksList` value the dispatcher embedding uses); and for a zero or
negative batch size and a non-empty contact list the loop advances its
index by `batchSize` and never terminates — no iteration fuel suffices. -/
theorem c10_batch_partition_termination (bs : Int) (l : List Contact) :
    (1 ≤ bs →
      chunksLoop bs l (l.length + 1) 0 = some (chunksList bs.toNat l) ∧
      (chunksList bs.toNat l).flatten = l ∧
      (chunksList bs.toNat l).all (fun ch => decide (ch.length ≤ bs.toNat)) = true) ∧
    (bs ≤ 0 → l ≠ [] → ∀ fuel, chunksLoop bs l fuel 0 = none) := by
  constructor
  · intro hbs
    refine ⟨?_, ?_, ?_⟩
    · have h := chunksLoop_eq_chunksList bs hbs l (l.length + 1) 0 (by omega)
      simpa using h
    · exact chunksListAux_flatten bs.toNat l.length l le_rfl
    · rw [List.all_eq_true]
      intro ch hch
      simpa using chunksListAux_length_le bs.toNat (by omega) l.length l le_rfl ch hch
  · intro hbs hl fuel
    exact chunksLoop_diverges bs hbs l hl fuel 0 le_rfl

theorem c10_batch_partition_termination_witness :
    chunksLoop 2 sampleContacts (sampleContacts.length + 1) 0 =
        some (chunksList (2 : Int).toNat sampleContacts) ∧
      (chunksList (2 : Int).toNat sampleContacts).flatten = sampleContacts ∧
      (chunksList (2 : Int).toNat sampleContacts).all
        (fun ch => decide (ch.length ≤ (2 : Int).toNat)) = true :=
  (c10_batch_partition_termination 2 sampleContacts).1 (by decide)

theorem c7_personalization_witness :
    personalizedMessage "Hi [Name], welcome!" (some "Ana") = "Hi Ana, welcome!" := by
  have h := (c7_personalization_amended "Hi [Name], welcome!" (some "Ana")
    ["Hi ".toList, ", welcome!".toList] (by decide) (by decide)).1
  rw [h]
  decide
